import Mathlib

/-!
Verification of `src/basic_bot.py`, a single-file Binance Futures testnet
order-placement script.  The script's numeric values are Python floats; we
model them as exact rationals (`ℚ`), which matches the intended real-number
semantics of the rounding and notional arithmetic.  Fallible Python code
(raised exceptions) is modelled with `Except`, and the HTTP side effects of
`place_order` are modelled as an explicit trace of `HttpCall`s returned
alongside the result.
-/

set_option autoImplicit false

namespace BasicBot

/-- `round_down` from `src/basic_bot.py` lines 89-90:
`return math.floor(value / step) * step`, over exact rationals. -/
def round_down (value step : ℚ) : ℚ :=
  ⌊value / step⌋ * step

/-! ### HMAC-SHA256 and query-string encoding

`_sign` (lines 51-53) computes `hmac.new(secret, urlencode(params).encode(),
hashlib.sha256).hexdigest()`.  We embed SHA-256, HMAC and `urlencode` (with
`quote_plus` percent-encoding, Python's default for `urlencode`) over byte
lists (`List Nat`, each entry < 256), with 32-bit words as `Nat` reduced
`% 2^32`. -/

/-- Truncate to a 32-bit word. -/
def w32 (n : Nat) : Nat := n % 4294967296

/-- 32-bit right rotation. -/
def rotr32 (x n : Nat) : Nat := w32 ((x >>> n) ||| (x <<< (32 - n)))

/-- 32-bit bitwise complement. -/
def not32 (x : Nat) : Nat := x ^^^ 4294967295

def sha_ch (x y z : Nat) : Nat := (x &&& y) ^^^ (not32 x &&& z)

def sha_maj (x y z : Nat) : Nat := (x &&& y) ^^^ (x &&& z) ^^^ (y &&& z)

def sha_S0 (x : Nat) : Nat := rotr32 x 2 ^^^ rotr32 x 13 ^^^ rotr32 x 22

def sha_S1 (x : Nat) : Nat := rotr32 x 6 ^^^ rotr32 x 11 ^^^ rotr32 x 25

def sha_s0 (x : Nat) : Nat := rotr32 x 7 ^^^ rotr32 x 18 ^^^ (x >>> 3)

def sha_s1 (x : Nat) : Nat := rotr32 x 17 ^^^ rotr32 x 19 ^^^ (x >>> 10)

/-- The 64 SHA-256 round constants (FIPS 180-4), in decimal. -/
def shaK : List Nat :=
  [1116352408, 1899447441, 3049323471, 3921009573, 961987163, 1508970993,
   2453635748, 2870763221, 3624381080, 310598401, 607225278, 1426881987,
   1925078388, 2162078206, 2614888103, 3248222580, 3835390401, 4022224774,
   264347078, 604807628, 770255983, 1249150122, 1555081692, 1996064986,
   2554220882, 2821834349, 2952996808, 3210313671, 3336571891, 3584528711,
   113926993, 338241895, 666307205, 773529912, 1294757372, 1396182291,
   1695183700, 1986661051, 2177026350, 2456956037, 2730485921, 2820302411,
   3259730800, 3345764771, 3516065817, 3600352804, 4094571909, 275423344,
   430227734, 506948616, 659060556, 883997877, 958139571, 1322822218,
   1537002063, 1747873779, 1955562222, 2024104815, 2227730452, 2361852424,
   2428436474, 2756734187, 3204031479, 3329325298]

/-- The initial SHA-256 hash state (FIPS 180-4), in decimal. -/
def shaH0 : List Nat :=
  [1779033703, 3144134277, 1013904242, 2773480762,
   1359893119, 2600822924, 528734635, 1541459225]

/-- Extend a 16-word message block by `n` further schedule words. -/
def shaExtend : Nat → List Nat → List Nat
  | 0, w => w
  | n + 1, w =>
    let i := w.length
    let wi := w32 (sha_s1 (w.getD (i - 2) 0) + w.getD (i - 7) 0 +
      sha_s0 (w.getD (i - 15) 0) + w.getD (i - 16) 0)
    shaExtend n (w ++ [wi])

/-- Working state of the SHA-256 compression function. -/
structure ShaState where
  a : Nat
  b : Nat
  c : Nat
  d : Nat
  e : Nat
  f : Nat
  g : Nat
  h : Nat

/-- One SHA-256 round; `kw` pairs the round constant with the schedule word. -/
def shaRound (s : ShaState) (kw : Nat × Nat) : ShaState :=
  let t1 := w32 (s.h + sha_S1 s.e + sha_ch s.e s.f s.g + kw.1 + kw.2)
  let t2 := w32 (sha_S0 s.a + sha_maj s.a s.b s.c)
  ⟨w32 (t1 + t2), s.a, s.b, s.c, w32 (s.d + t1), s.e, s.f, s.g⟩

/-- Big-endian 4-byte groups to 32-bit words. -/
def bytesToWords : List Nat → List Nat
  | b0 :: b1 :: b2 :: b3 :: rest =>
    (b0 * 16777216 + b1 * 65536 + b2 * 256 + b3) :: bytesToWords rest
  | _ => []

/-- Compress one 16-word block into the running hash state. -/
def shaCompress (hs block : List Nat) : List Nat :=
  let w := shaExtend 48 block
  let s0 : ShaState := ⟨hs.getD 0 0, hs.getD 1 0, hs.getD 2 0, hs.getD 3 0,
    hs.getD 4 0, hs.getD 5 0, hs.getD 6 0, hs.getD 7 0⟩
  let s := (shaK.zip w).foldl shaRound s0
  [w32 (s0.a + s.a), w32 (s0.b + s.b), w32 (s0.c + s.c), w32 (s0.d + s.d),
   w32 (s0.e + s.e), w32 (s0.f + s.f), w32 (s0.g + s.g), w32 (s0.h + s.h)]

/-- Process `n` 64-byte blocks of `bytes`. -/
def shaLoop : Nat → List Nat → List Nat → List Nat
  | 0, hs, _ => hs
  | n + 1, hs, bytes =>
    shaLoop n (shaCompress hs (bytesToWords (bytes.take 64))) (bytes.drop 64)

/-- Big-endian 8-byte encoding of a 64-bit value. -/
def be64 (n : Nat) : List Nat :=
  [(n >>> 56) % 256, (n >>> 48) % 256, (n >>> 40) % 256, (n >>> 32) % 256,
   (n >>> 24) % 256, (n >>> 16) % 256, (n >>> 8) % 256, n % 256]

/-- SHA-256 padding: `0x80`, zeros to 56 mod 64, then the bit length. -/
def sha256Pad (msg : List Nat) : List Nat :=
  let L := msg.length
  let k := (64 + 56 - ((L + 1) % 64)) % 64
  msg ++ [128] ++ List.replicate k 0 ++ be64 (L * 8)

/-- Big-endian bytes of one 32-bit word. -/
def wordBytes (w : Nat) : List Nat :=
  [(w >>> 24) % 256, (w >>> 16) % 256, (w >>> 8) % 256, w % 256]

/-- SHA-256 of a byte list, as the 32-byte digest. -/
def sha256 (msg : List Nat) : List Nat :=
  let padded := sha256Pad msg
  ((shaLoop (padded.length / 64) shaH0 padded).map wordBytes).flatten

/-- HMAC-SHA256 with a 64-byte block size. -/
def hmacSha256 (key msg : List Nat) : List Nat :=
  let key1 := if 64 < key.length then sha256 key else key
  let key0 := key1 ++ List.replicate (64 - key1.length) 0
  sha256 ((key0.map fun b => b ^^^ 92) ++
    sha256 ((key0.map fun b => b ^^^ 54) ++ msg))

/-- Lower-case hex digit. -/
def hexChar (n : Nat) : Char :=
  if n < 10 then Char.ofNat (48 + n) else Char.ofNat (87 + n)

/-- `hexdigest()`: lower-case hex string of a byte list. -/
def hexDigest (bytes : List Nat) : String :=
  String.join (bytes.map fun b => String.mk [hexChar (b / 16), hexChar (b % 16)])

/-- Upper-case hex digit, as used by percent-encoding. -/
def hexCharUpper (n : Nat) : Char :=
  if n < 10 then Char.ofNat (48 + n) else Char.ofNat (55 + n)

/-- UTF-8 bytes of a string. -/
def strBytes (s : String) : List Nat :=
  s.toUTF8.toList.map UInt8.toNat

/-- Python `urllib.parse.quote_plus`: alphanumerics and `_.-~` kept, space
becomes `+`, every other byte becomes `%XX`. -/
def quote_plus (s : String) : String :=
  String.join ((strBytes s).map fun n =>
    if (65 ≤ n && n ≤ 90) || (97 ≤ n && n ≤ 122) || (48 ≤ n && n ≤ 57) ||
        n == 95 || n == 46 || n == 45 || n == 126 then
      String.mk [Char.ofNat n]
    else if n == 32 then "+"
    else String.mk ['%', hexCharUpper (n / 16), hexCharUpper (n % 16)])

/-- `urllib.parse.urlencode` on string-valued parameters, in the order the
dict holds them (Python dicts iterate in insertion order). -/
def urlencode (params : List (String × String)) : String :=
  String.intercalate "&" (params.map fun p => quote_plus p.1 ++ "=" ++ quote_plus p.2)

/-- `_sign` from `src/basic_bot.py` lines 51-53: the hex HMAC-SHA256 of the
url-encoded parameter list under the secret key. -/
def hmac_sign (params : List (String × String)) (api_secret : List Nat) : String :=
  hexDigest (hmacSha256 api_secret (strBytes (urlencode params)))

/-! ### The exchange-rule data model and `place_order` -/

/-- Python `str.upper()` on one character, restricted to ASCII (all the
script's symbol/side/type strings are ASCII). -/
def upperChar (c : Char) : Char :=
  if 97 ≤ c.toNat && c.toNat ≤ 122 then Char.ofNat (c.toNat - 32) else c

/-- Python `str.upper()`. -/
def upper (s : String) : String := String.mk (s.data.map upperChar)

/-- One entry of `exchangeInfo`'s `symbols[..].filters` list.  The numeric
fields are already parsed (the script applies `float(...)` to the JSON
strings); a `none` field models an absent JSON key. -/
structure ExchangeFilter where
  filterType : String
  stepSize : Option ℚ := none
  tickSize : Option ℚ := none
  minNotional : Option ℚ := none
  deriving DecidableEq, Repr

/-- One entry of `exchangeInfo`'s `symbols` list. -/
structure SymbolInfo where
  symbol : String
  filters : List ExchangeFilter
  deriving DecidableEq, Repr

/-- An HTTP request issued by the script, in order of issue. -/
inductive HttpCall where
  | get (path : String)
  | post (path : String) (params : List (String × String))
  deriving DecidableEq, Repr

/-- The exceptions `place_order` can raise:
* `stopIteration`: `next()` in `get_symbol_info` finds no matching symbol;
* `keyError k`: `f["stepSize"]` / `f["tickSize"]` on a filter lacking the key;
* `rulesMissing`: `ValueError("Failed to fetch step_size or tick_size ...")`;
* `notionalTooLow`: `ValueError(f"Order notional ... below minimum ...")`;
* `typeErrorNonePrice`: `TypeError` from `quantity * price` with `price=None`;
* `missingPrice`: `ValueError("Limit order requires --price")`. -/
inductive BotError where
  | stopIteration
  | keyError (key : String)
  | rulesMissing
  | notionalTooLow (notional minNotional : ℚ)
  | typeErrorNonePrice
  | missingPrice
  deriving DecidableEq, Repr

/-- `get_symbol_info` (lines 70-72): issues the unauthenticated
`GET /fapi/v1/exchangeInfo` and returns the first listed symbol equal to
`symbol.upper()`; `next(...)` raises `StopIteration` when none matches.
`info` is the `symbols` list of the endpoint's response. -/
def get_symbol_info (info : List SymbolInfo) (symbol : String) :
    List HttpCall × Except BotError SymbolInfo :=
  ([.get "/fapi/v1/exchangeInfo"],
    match info.find? (fun s => s.symbol == upper symbol) with
    | some s => .ok s
    | none => .error .stopIteration)

/-- The filter loop of `place_order` (lines 76-83): later filters of the same
type overwrite earlier ones; `float(f.get("minNotional") or 0)` turns an
absent `minNotional` key into `0`. -/
def scanFilters : List ExchangeFilter → Option ℚ → Option ℚ → Option ℚ →
    Except BotError (Option ℚ × Option ℚ × Option ℚ)
  | [], step, tick, minN => .ok (step, tick, minN)
  | f :: fs, step, tick, minN =>
    if f.filterType == "LOT_SIZE" then
      match f.stepSize with
      | some v => scanFilters fs (some v) tick minN
      | none => .error (.keyError "stepSize")
    else if f.filterType == "PRICE_FILTER" then
      match f.tickSize with
      | some v => scanFilters fs step (some v) minN
      | none => .error (.keyError "tickSize")
    else if f.filterType == "MIN_NOTIONAL" then
      scanFilters fs step tick
        (some (match f.minNotional with | some v => v | none => 0))
    else scanFilters fs step tick minN

/-- Python `min_notional or 0` on the loop's result (line 96): `None` and
`0.0` are falsy, so both give `0`. -/
def orZero : Option ℚ → ℚ
  | none => 0
  | some v => v

/-- Models Python `str()` on a numeric value.  No claim depends on the exact
decimal rendering, so the canonical rational rendering is used. -/
def floatStr (q : ℚ) : String := toString q

/-- `place_order` (lines 74-114).  `info` stands for the `symbols` list the
`exchangeInfo` GET returns and `timestamp` for `int(time.time() * 1000)`.
The result pairs the trace of HTTP requests issued (in order) with either
the raised exception or, on success, the signed parameter list sent by
`POST /fapi/v1/order` (the order response itself is network-determined and
outside the model). -/
def place_order (info : List SymbolInfo) (api_secret : List Nat)
    (recvWindow timestamp : ℤ) (symbol side order_type : String)
    (quantity : ℚ) (price : Option ℚ) (time_in_force : String) :
    List HttpCall × Except BotError (List (String × String)) :=
  let fetch := get_symbol_info info symbol
  match fetch.2 with
  | .error e => (fetch.1, .error e)
  | .ok symbol_info =>
    match scanFilters symbol_info.filters none none none with
    | .error e => (fetch.1, .error e)
    | .ok (step_size, tick_size, min_notional) =>
      match step_size, tick_size with
      | some step, some tick =>
        -- line 85: `if not step_size or not tick_size` is also true for 0.0
        if step == 0 || tick == 0 then (fetch.1, .error .rulesMissing)
        else
          let quantity1 := round_down quantity step
          let price1 := price.map fun p => round_down p tick
          let submit : List HttpCall × Except BotError (List (String × String)) :=
            let params0 : List (String × String) :=
              [("symbol", upper symbol), ("side", upper side),
               ("type", upper order_type), ("quantity", floatStr quantity1),
               ("timestamp", toString timestamp),
               ("recvWindow", toString recvWindow)]
            if upper order_type == "LIMIT" then
              match price1 with
              | none => (fetch.1, .error .missingPrice)
              | some p =>
                let params1 := params0 ++
                  [("price", floatStr p), ("timeInForce", time_in_force)]
                let params2 := params1 ++
                  [("signature", hmac_sign params1 api_secret)]
                (fetch.1 ++ [.post "/fapi/v1/order" params2], .ok params2)
            else
              let params2 := params0 ++
                [("signature", hmac_sign params0 api_secret)]
              (fetch.1 ++ [.post "/fapi/v1/order" params2], .ok params2)
          if upper order_type == "LIMIT" then
            -- line 96: `(quantity * price)` raises TypeError when price is None
            match price1 with
            | none => (fetch.1, .error .typeErrorNonePrice)
            | some p =>
              if quantity1 * p < orZero min_notional then
                (fetch.1, .error (.notionalTooLow (quantity1 * p) (orZero min_notional)))
              else submit
          else submit
      | _, _ => (fetch.1, .error .rulesMissing)

/-- Exit code of `main` (lines 128-146): falls off the end (exit 0) after a
successful `place_order`, and runs `sys.exit(1)` when it raises. -/
def main_exit_code (info : List SymbolInfo) (api_secret : List Nat)
    (recvWindow timestamp : ℤ) (symbol side order_type : String)
    (quantity : ℚ) (price : Option ℚ) (time_in_force : String) : Nat :=
  match (place_order info api_secret recvWindow timestamp symbol side
      order_type quantity price time_in_force).2 with
  | .ok _ => 0
  | .error _ => 1

deriving instance DecidableEq for Except

/-- Does the result carry the notional-too-low `ValueError` of line 97? -/
def isNotionalError : Except BotError (List (String × String)) → Bool
  | .error (.notionalTooLow _ _) => true
  | _ => false

/-- `true` when a successful result's posted parameters lack `key`
(vacuously `true` on error results). -/
def paramsLackKey (r : Except BotError (List (String × String))) (key : String) : Bool :=
  match r with
  | .ok ps => (ps.lookup key).isNone
  | .error _ => true

/-- Sample filter list shaped like the testnet's BTCUSDT rules
(stepSize 0.001, tickSize 0.1, minNotional 100), for concrete runs. -/
def btcFilters : List ExchangeFilter :=
  [{ filterType := "PRICE_FILTER", tickSize := some (1/10) },
   { filterType := "LOT_SIZE", stepSize := some (1/1000) },
   { filterType := "MIN_NOTIONAL", minNotional := some 100 }]

/-- A sample `symbols` list with the one entry `BTCUSDT`. -/
def sampleInfo : List SymbolInfo := [⟨"BTCUSDT", btcFilters⟩]

/-- A sample API secret (UTF-8 bytes). -/
def sampleSecret : List Nat := strBytes "testsecret"

/-- The `"quantity"`/`"price"`-style field of a successful result's posted
parameters (`none` on error results). -/
def okLookup (r : Except BotError (List (String × String))) (key : String) :
    Option String :=
  match r with
  | .ok ps => ps.lookup key
  | .error _ => none

/-- Filters with no `LOT_SIZE` entry, for runs where stepSize is missing. -/
def noLotFilters : List ExchangeFilter :=
  [{ filterType := "PRICE_FILTER", tickSize := some (1/10) },
   { filterType := "MIN_NOTIONAL", minNotional := some 100 }]

/-- A `symbols` list whose only entry lacks the `LOT_SIZE` filter. -/
def noLotInfo : List SymbolInfo := [⟨"ETHUSDT", noLotFilters⟩]

/-- Filters with no `MIN_NOTIONAL` entry. -/
def noMinFilters : List ExchangeFilter :=
  [{ filterType := "PRICE_FILTER", tickSize := some (1/10) },
   { filterType := "LOT_SIZE", stepSize := some (1/1000) }]

/-- A `symbols` list whose only entry lacks the `MIN_NOTIONAL` filter. -/
def noMinInfo : List SymbolInfo := [⟨"XRPUSDT", noMinFilters⟩]

/-! ## Theorems -/

theorem round_down_le {value step : ℚ} (hs : 0 < step) :
    round_down value step ≤ value := by
  have h := Int.floor_le (value / step)
  have h2 : (⌊value / step⌋ : ℚ) * step ≤ value / step * step :=
    mul_le_mul_of_nonneg_right h (le_of_lt hs)
  simpa [round_down, div_mul_cancel₀ value (ne_of_gt hs)] using h2

theorem round_down_greatest {value step : ℚ} (hs : 0 < step)
    (k : ℤ) (hk : (k : ℚ) * step ≤ value) :
    (k : ℚ) * step ≤ round_down value step := by
  have hk' : (k : ℚ) ≤ value / step := by
    rw [le_div_iff₀ hs]; exact hk
  have : k ≤ ⌊value / step⌋ := Int.le_floor.mpr hk'
  exact mul_le_mul_of_nonneg_right (by exact_mod_cast this) (le_of_lt hs)

theorem round_down_idem {value step : ℚ} (hs : step ≠ 0) :
    round_down (round_down value step) step = round_down value step := by
  unfold round_down
  rw [mul_div_cancel_right₀ _ hs, Int.floor_intCast]

/-- If no filter is a `LOT_SIZE` filter, the loop leaves `step_size = None`
(provided every `PRICE_FILTER` carries a `tickSize`, so no `KeyError`). -/
theorem scanFilters_no_lot (fs : List ExchangeFilter)
    (hno : ∀ f ∈ fs, ¬ f.filterType = "LOT_SIZE")
    (hwf : ∀ f ∈ fs, f.filterType = "PRICE_FILTER" → f.tickSize.isSome) :
    ∀ tick minN : Option ℚ, ∃ tick' minN' : Option ℚ,
      scanFilters fs none tick minN = .ok (none, tick', minN') := by
  induction fs with
  | nil => intro tick minN; exact ⟨tick, minN, rfl⟩
  | cons f fs ih =>
    intro tick minN
    have hf : ¬ f.filterType = "LOT_SIZE" := hno f (List.mem_cons_self _ _)
    have ih' := ih (fun g hg => hno g (List.mem_cons_of_mem _ hg))
      (fun g hg h => hwf g (List.mem_cons_of_mem _ hg) h)
    by_cases hpf : f.filterType = "PRICE_FILTER"
    · obtain ⟨v, hv⟩ := Option.isSome_iff_exists.mp
        (hwf f (List.mem_cons_self _ _) hpf)
      simp only [scanFilters, beq_iff_eq, hf, hpf, if_false, ite_false,
        if_true, ite_true, hv]
      exact ih' _ _
    · by_cases hmn : f.filterType = "MIN_NOTIONAL"
      · simp only [scanFilters, beq_iff_eq, hf, hpf, hmn, if_false, ite_false,
          if_true, ite_true]
        exact ih' _ _
      · simp only [scanFilters, beq_iff_eq, hf, hpf, hmn, if_false, ite_false]
        exact ih' _ _

/-- If no filter is a `PRICE_FILTER`, the loop leaves `tick_size = None`
(provided every `LOT_SIZE` carries a `stepSize`, so no `KeyError`). -/
theorem scanFilters_no_price (fs : List ExchangeFilter)
    (hno : ∀ f ∈ fs, ¬ f.filterType = "PRICE_FILTER")
    (hwf : ∀ f ∈ fs, f.filterType = "LOT_SIZE" → f.stepSize.isSome) :
    ∀ step minN : Option ℚ, ∃ step' minN' : Option ℚ,
      scanFilters fs step none minN = .ok (step', none, minN') := by
  induction fs with
  | nil => intro step minN; exact ⟨step, minN, rfl⟩
  | cons f fs ih =>
    intro step minN
    have hf : ¬ f.filterType = "PRICE_FILTER" := hno f (List.mem_cons_self _ _)
    have ih' := ih (fun g hg => hno g (List.mem_cons_of_mem _ hg))
      (fun g hg h => hwf g (List.mem_cons_of_mem _ hg) h)
    by_cases hlot : f.filterType = "LOT_SIZE"
    · obtain ⟨v, hv⟩ := Option.isSome_iff_exists.mp
        (hwf f (List.mem_cons_self _ _) hlot)
      simp only [scanFilters, beq_iff_eq, hlot, if_true, ite_true, hv]
      exact ih' _ _
    · by_cases hmn : f.filterType = "MIN_NOTIONAL"
      · simp [scanFilters, hf, hlot, hmn]
        exact ih' _ _
      · simp [scanFilters, hf, hlot, hmn]
        exact ih' _ _

/-- If every `MIN_NOTIONAL` filter lacks its `minNotional` value (in
particular if there is no such filter at all), the loop's `min_notional`
result is `None` or `0.0`. -/
theorem scanFilters_minN_zero (fs : List ExchangeFilter) :
    ∀ (step tick minN step' tick' minN' : Option ℚ),
      scanFilters fs step tick minN = .ok (step', tick', minN') →
      (∀ f ∈ fs, f.filterType = "MIN_NOTIONAL" → f.minNotional = none) →
      (minN = none ∨ minN = some 0) → (minN' = none ∨ minN' = some 0) := by
  induction fs with
  | nil =>
    intro step tick minN step' tick' minN' hscan _ hinit
    simp only [scanFilters, Except.ok.injEq, Prod.mk.injEq] at hscan
    obtain ⟨-, -, h3⟩ := hscan
    exact h3 ▸ hinit
  | cons f fs ih =>
    intro step tick minN step' tick' minN' hscan hm hinit
    have hm' : ∀ g ∈ fs, g.filterType = "MIN_NOTIONAL" → g.minNotional = none :=
      fun g hg => hm g (List.mem_cons_of_mem _ hg)
    by_cases hlot : f.filterType = "LOT_SIZE"
    · cases hv : f.stepSize with
      | some v =>
        simp [scanFilters, hlot, hv] at hscan
        exact ih _ _ _ _ _ _ hscan hm' hinit
      | none =>
        simp [scanFilters, hlot, hv] at hscan
    · by_cases hpf : f.filterType = "PRICE_FILTER"
      · cases hv : f.tickSize with
        | some v =>
          simp [scanFilters, hlot, hpf, hv] at hscan
          exact ih _ _ _ _ _ _ hscan hm' hinit
        | none =>
          simp [scanFilters, hlot, hpf, hv] at hscan
      · by_cases hmn : f.filterType = "MIN_NOTIONAL"
        · have hnone : f.minNotional = none := hm f (List.mem_cons_self _ _) hmn
          simp [scanFilters, hlot, hpf, hmn, hnone] at hscan
          exact ih _ _ _ _ _ _ hscan hm' (Or.inr rfl)
        · simp [scanFilters, hlot, hpf, hmn] at hscan
          exact ih _ _ _ _ _ _ hscan hm' hinit

/-- C3: rounding is idempotent — for every value `v` and every step `s > 0`,
`round_down (round_down v s) s = round_down v s`. -/
theorem C3_round_down_idempotent (value step : ℚ) (hs : 0 < step) :
    round_down (round_down value step) step = round_down value step :=
  round_down_idem (ne_of_gt hs)

/-- Witness for C3 at `value = 7/3`, `step = 1/2`. -/
theorem C3_round_down_idempotent_witness :
    (0:ℚ) < 1/2 ∧
    round_down (round_down (7/3) (1/2)) (1/2) = round_down (7/3) (1/2) :=
  ⟨by norm_num, C3_round_down_idempotent (7/3) (1/2) (by norm_num)⟩

/-- C7: the signature is deterministic — two `_sign` invocations with equal
parameter lists (Python dicts iterate in insertion order, which the lists
model) and equal secret keys produce equal hex HMAC-SHA256 strings. -/
theorem C7_sign_deterministic (params1 params2 : List (String × String))
    (secret1 secret2 : List Nat)
    (hp : params1 = params2) (hk : secret1 = secret2) :
    hmac_sign params1 secret1 = hmac_sign params2 secret2 := by
  rw [hp, hk]

/-- Witness for C7 on a concrete parameter list and secret. -/
theorem C7_sign_deterministic_witness :
    [("symbol", "BTCUSDT"), ("side", "BUY")]
      = [("symbol", "BTCUSDT"), ("side", "BUY")] ∧
    sampleSecret = sampleSecret ∧
    hmac_sign [("symbol", "BTCUSDT"), ("side", "BUY")] sampleSecret
      = hmac_sign [("symbol", "BTCUSDT"), ("side", "BUY")] sampleSecret :=
  ⟨rfl, rfl, C7_sign_deterministic _ _ _ _ rfl rfl⟩

/-- C8: `main` exits with code 0 exactly when `place_order` returns normally
(the JSON order response is printed) and with code 1 exactly when it raises
an exception. -/
theorem C8_exit_code_success_failure (info : List SymbolInfo)
    (api_secret : List Nat) (recvWindow timestamp : ℤ)
    (symbol side order_type : String) (quantity : ℚ) (price : Option ℚ)
    (time_in_force : String) :
    (main_exit_code info api_secret recvWindow timestamp symbol side
        order_type quantity price time_in_force = 0
      ↔ (place_order info api_secret recvWindow timestamp symbol side
          order_type quantity price time_in_force).2.isOk = true) ∧
    (main_exit_code info api_secret recvWindow timestamp symbol side
        order_type quantity price time_in_force = 1
      ↔ (place_order info api_secret recvWindow timestamp symbol side
          order_type quantity price time_in_force).2.isOk = false) := by
  unfold main_exit_code
  cases h : (place_order info api_secret recvWindow timestamp symbol side
      order_type quantity price time_in_force).2 with
  | ok v => simp [h, Except.isOk, Except.toBool]
  | error e => simp [h, Except.isOk, Except.toBool]

/-- C5: for a LIMIT order whose symbol rules and price are present, the
notional-too-low `ValueError` of line 97 is raised exactly when the rounded
`quantity * price` is below `min_notional or 0`; otherwise the check passes
and no such error is raised. -/
theorem C5_limit_notional_validation_iff (info : List SymbolInfo)
    (api_secret : List Nat) (recvWindow timestamp : ℤ)
    (symbol side order_type : String) (quantity p : ℚ)
    (time_in_force : String) (si : SymbolInfo) (step tick : ℚ) (m : Option ℚ)
    (h1 : info.find? (fun s => s.symbol == upper symbol) = some si)
    (h2 : scanFilters si.filters none none none = .ok (some step, some tick, m))
    (hstep : ¬ step = 0) (htick : ¬ tick = 0)
    (hlim : upper order_type = "LIMIT") :
    isNotionalError (place_order info api_secret recvWindow timestamp symbol
        side order_type quantity (some p) time_in_force).2 = true
      ↔ round_down quantity step * round_down p tick < orZero m := by
  simp only [place_order, get_symbol_info, h1, h2, hlim, Option.map_some',
    Bool.or_eq_true, beq_iff_eq, hstep, htick, or_self, false_or, or_false,
    if_false, ite_false, beq_self_eq_true, if_true, ite_true]
  split
  · rename_i hlt
    simp only [isNotionalError, true_iff]
    exact hlt
  · rename_i hlt
    exact iff_of_false (by simp [isNotionalError]) hlt

/-- Witness for C5 on a concrete below-minimum LIMIT order
(`0.03 × 50 = 1.5 < 100`). -/
theorem C5_limit_notional_validation_iff_witness :
    sampleInfo.find? (fun s => s.symbol == upper "BTCUSDT")
      = some ⟨"BTCUSDT", btcFilters⟩ ∧
    scanFilters btcFilters none none none
      = .ok (some (1/1000), some (1/10), some 100) ∧
    ¬ (1/1000 : ℚ) = 0 ∧
    upper "limit" = "LIMIT" ∧
    (isNotionalError (place_order sampleInfo sampleSecret 5000 1700000000000
        "BTCUSDT" "buy" "limit" (3/100) (some 50) "GTC").2 = true
      ↔ round_down (3/100) (1/1000) * round_down 50 (1/10) < orZero (some 100)) := by
  refine ⟨by with_unfolding_all rfl, by with_unfolding_all rfl,
    by norm_num, by with_unfolding_all rfl, ?_⟩
  exact C5_limit_notional_validation_iff sampleInfo sampleSecret 5000
    1700000000000 "BTCUSDT" "buy" "limit" (3/100) 50 "GTC"
    ⟨"BTCUSDT", btcFilters⟩ (1/1000) (1/10) (some 100)
    (by with_unfolding_all rfl) (by with_unfolding_all rfl)
    (by norm_num) (by norm_num) (by with_unfolding_all rfl)

/-- C1 counterexample: on a LIMIT order whose notional `0.005 × 100 = 0.5`
is below the minimum `100`, the rejection does come, but only after
`get_symbol_info` has already issued the `GET /fapi/v1/exchangeInfo` HTTP
request: the trace of requests issued up to the rejection is nonempty,
refuting "no HTTP request of any kind is issued before the rejection". -/
theorem C1_get_request_precedes_rejection :
    place_order sampleInfo sampleSecret 5000 1700000000000 "BTCUSDT" "BUY"
        "LIMIT" (5/1000) (some 100) "GTC"
      = ([.get "/fapi/v1/exchangeInfo"], .error (.notionalTooLow (1/2) 100)) ∧
    ([HttpCall.get "/fapi/v1/exchangeInfo"] : List HttpCall) ≠ [] :=
  ⟨by with_unfolding_all rfl, by simp⟩

/-- C1 (amended): a below-minimum LIMIT order is rejected before the order
is submitted — the result is the notional-too-low error and the only HTTP
request issued is the metadata GET; no POST to `/fapi/v1/order` occurs. -/
theorem C1_rejected_before_order_submission (info : List SymbolInfo)
    (api_secret : List Nat) (recvWindow timestamp : ℤ)
    (symbol side order_type : String) (quantity p : ℚ)
    (time_in_force : String) (si : SymbolInfo) (step tick : ℚ) (m : Option ℚ)
    (h1 : info.find? (fun s => s.symbol == upper symbol) = some si)
    (h2 : scanFilters si.filters none none none = .ok (some step, some tick, m))
    (hstep : ¬ step = 0) (htick : ¬ tick = 0)
    (hlim : upper order_type = "LIMIT")
    (hnot : round_down quantity step * round_down p tick < orZero m) :
    place_order info api_secret recvWindow timestamp symbol side order_type
        quantity (some p) time_in_force
      = ([.get "/fapi/v1/exchangeInfo"],
         .error (.notionalTooLow (round_down quantity step * round_down p tick)
           (orZero m))) := by
  simp only [place_order, get_symbol_info, h1, h2, hlim, Option.map_some',
    Bool.or_eq_true, beq_iff_eq, hstep, htick, or_self, false_or, or_false,
    if_false, ite_false, beq_self_eq_true, if_true, ite_true, hnot, if_pos]

/-- Witness for the amended C1 on a concrete below-minimum LIMIT order. -/
theorem C1_rejected_before_order_submission_witness :
    sampleInfo.find? (fun s => s.symbol == upper "BTCUSDT")
      = some ⟨"BTCUSDT", btcFilters⟩ ∧
    ¬ (1/10 : ℚ) = 0 ∧
    upper "limit" = "LIMIT" ∧
    round_down (7/1000) (1/1000) * round_down 20 (1/10) < orZero (some 100) ∧
    place_order sampleInfo sampleSecret 5000 1700000000000 "BTCUSDT" "sell"
        "limit" (7/1000) (some 20) "GTC"
      = ([.get "/fapi/v1/exchangeInfo"],
         .error (.notionalTooLow
           (round_down (7/1000) (1/1000) * round_down 20 (1/10))
           (orZero (some 100)))) := by
  have hnot : round_down (7/1000) (1/1000) * round_down 20 (1/10)
      < orZero (some 100) := of_decide_eq_true (by with_unfolding_all rfl)
  refine ⟨by with_unfolding_all rfl, by norm_num,
    by with_unfolding_all rfl, hnot, ?_⟩
  exact C1_rejected_before_order_submission sampleInfo sampleSecret 5000
    1700000000000 "BTCUSDT" "sell" "limit" (7/1000) 20 "GTC"
    ⟨"BTCUSDT", btcFilters⟩ (1/1000) (1/10) (some 100)
    (by with_unfolding_all rfl) (by with_unfolding_all rfl)
    (by norm_num) (by norm_num) (by with_unfolding_all rfl) hnot

/-- C2: `round_down v s = ⌊v / s⌋ · s` is the greatest multiple of `s` not
exceeding `v` (for `v ≥ 0`, `s > 0`, witnessed by any integer multiple
`k · s ≤ v`), and `place_order` applies exactly this rounding to the
submitted quantity using `stepSize` and to the submitted price (present
exactly on LIMIT orders) using `tickSize`. -/
theorem C2_round_down_spec_and_applied
    (value step0 : ℚ) (_hv : 0 ≤ value) (hs : 0 < step0)
    (k : ℤ) (hk : (k : ℚ) * step0 ≤ value)
    (info : List SymbolInfo) (api_secret : List Nat)
    (recvWindow timestamp : ℤ) (symbol side order_type : String)
    (quantity : ℚ) (price : Option ℚ) (time_in_force : String)
    (si : SymbolInfo) (step tick : ℚ) (m : Option ℚ)
    (h1 : info.find? (fun s => s.symbol == upper symbol) = some si)
    (h2 : scanFilters si.filters none none none = .ok (some step, some tick, m))
    (hok : (place_order info api_secret recvWindow timestamp symbol side
        order_type quantity price time_in_force).2.isOk = true) :
    round_down value step0 = (⌊value / step0⌋ : ℚ) * step0 ∧
    round_down value step0 ≤ value ∧
    (k : ℚ) * step0 ≤ round_down value step0 ∧
    okLookup (place_order info api_secret recvWindow timestamp symbol side
        order_type quantity price time_in_force).2 "quantity"
      = some (floatStr (round_down quantity step)) ∧
    okLookup (place_order info api_secret recvWindow timestamp symbol side
        order_type quantity price time_in_force).2 "price"
      = (if upper order_type = "LIMIT"
          then price.map (fun p => floatStr (round_down p tick)) else none) := by
  refine ⟨rfl, round_down_le hs, round_down_greatest hs k hk, ?_⟩
  by_cases hstep : step = 0
  · exfalso
    simp [place_order, get_symbol_info, h1, h2, hstep, Except.isOk,
      Except.toBool] at hok
  by_cases htick : tick = 0
  · exfalso
    simp [place_order, get_symbol_info, h1, h2, htick, Except.isOk,
      Except.toBool] at hok
  by_cases hlim : upper order_type = "LIMIT"
  · cases price with
    | none =>
      exfalso
      simp [place_order, get_symbol_info, h1, h2, hstep, htick, hlim,
        Except.isOk, Except.toBool] at hok
    | some p =>
      by_cases hnot : round_down quantity step * round_down p tick < orZero m
      · exfalso
        simp [place_order, get_symbol_info, h1, h2, hstep, htick, hlim, hnot,
          Except.isOk, Except.toBool] at hok
      · simp [place_order, get_symbol_info, h1, h2, hstep, htick, hlim, hnot,
          okLookup, List.lookup]
  · simp [place_order, get_symbol_info, h1, h2, hstep, htick, hlim,
      okLookup, List.lookup]

/-- Witness for C2: the rounding facts at `value = 7/2`, `step = 2`, `k = 1`,
and the submitted fields of a successful concrete LIMIT order. -/
theorem C2_round_down_spec_and_applied_witness :
    (0:ℚ) ≤ 7/2 ∧ (0:ℚ) < 2 ∧ ((1:ℤ) : ℚ) * 2 ≤ 7/2 ∧
    (place_order sampleInfo sampleSecret 5000 1700000000000 "BTCUSDT" "buy"
        "limit" (12345/10000) (some (300007/10)) "GTC").2.isOk = true ∧
    round_down (7/2) 2 = (⌊(7/2 : ℚ) / 2⌋ : ℚ) * 2 ∧
    ((1:ℤ) : ℚ) * 2 ≤ round_down (7/2) 2 ∧
    okLookup (place_order sampleInfo sampleSecret 5000 1700000000000 "BTCUSDT"
        "buy" "limit" (12345/10000) (some (300007/10)) "GTC").2 "quantity"
      = some (floatStr (round_down (12345/10000) (1/1000))) ∧
    okLookup (place_order sampleInfo sampleSecret 5000 1700000000000 "BTCUSDT"
        "buy" "limit" (12345/10000) (some (300007/10)) "GTC").2 "price"
      = (if upper "limit" = "LIMIT"
          then (some (300007/10) : Option ℚ).map
            (fun p => floatStr (round_down p (1/10))) else none) := by
  have hok : (place_order sampleInfo sampleSecret 5000 1700000000000 "BTCUSDT"
      "buy" "limit" (12345/10000) (some (300007/10)) "GTC").2.isOk = true := by
    with_unfolding_all rfl
  have h := C2_round_down_spec_and_applied (7/2) 2 (by norm_num) (by norm_num)
    1 (by norm_num) sampleInfo sampleSecret 5000 1700000000000 "BTCUSDT" "buy"
    "limit" (12345/10000) (some (300007/10)) "GTC" ⟨"BTCUSDT", btcFilters⟩
    (1/1000) (1/10) (some 100)
    (by with_unfolding_all rfl) (by with_unfolding_all rfl) hok
  exact ⟨by norm_num, by norm_num, by norm_num, hok, h.1, h.2.2.1,
    h.2.2.2.1, h.2.2.2.2⟩

/-- C4 (code behaviour at the failing input): a LIMIT order with no price
fails with the `TypeError` raised by `quantity * None` in the notional
check of line 96, not with the intended
`ValueError("Limit order requires --price")` of line 110, which is
unreachable; a MARKET order with no price succeeds, never requiring one. -/
theorem C4_missing_price_raises_typeerror :
    (place_order sampleInfo sampleSecret 5000 1700000000000 "BTCUSDT" "BUY"
        "LIMIT" 1 none "GTC").2 = .error .typeErrorNonePrice ∧
    (place_order sampleInfo sampleSecret 5000 1700000000000 "BTCUSDT" "BUY"
        "LIMIT" 1 none "GTC").2 ≠ .error .missingPrice ∧
    (place_order sampleInfo sampleSecret 5000 1700000000000 "BTCUSDT" "BUY"
        "MARKET" 1 none "GTC").2.isOk = true := by
  have h1 : (place_order sampleInfo sampleSecret 5000 1700000000000 "BTCUSDT"
      "BUY" "LIMIT" 1 none "GTC").2 = .error .typeErrorNonePrice := by
    with_unfolding_all rfl
  refine ⟨h1, ?_, by with_unfolding_all rfl⟩
  rw [h1]
  simp

/-- C6: if the fetched symbol rules contain no `LOT_SIZE` filter or no
`PRICE_FILTER` filter (well-formed otherwise), `place_order` raises the
`ValueError` of line 86 before submitting anything: the result is the
rules-missing error and the only HTTP request issued is the metadata GET. -/
theorem C6_missing_rules_rejected (info : List SymbolInfo)
    (api_secret : List Nat) (recvWindow timestamp : ℤ)
    (symbol side order_type : String) (quantity : ℚ) (price : Option ℚ)
    (time_in_force : String) (si : SymbolInfo)
    (h1 : info.find? (fun s => s.symbol == upper symbol) = some si)
    (hwf : ∀ f ∈ si.filters, (f.filterType = "LOT_SIZE" → f.stepSize.isSome) ∧
      (f.filterType = "PRICE_FILTER" → f.tickSize.isSome))
    (habs : (∀ f ∈ si.filters, ¬ f.filterType = "LOT_SIZE") ∨
      (∀ f ∈ si.filters, ¬ f.filterType = "PRICE_FILTER")) :
    place_order info api_secret recvWindow timestamp symbol side order_type
        quantity price time_in_force
      = ([.get "/fapi/v1/exchangeInfo"], .error .rulesMissing) := by
  rcases habs with h | h
  · obtain ⟨t', m', hscan⟩ := scanFilters_no_lot si.filters h
      (fun f hf => (hwf f hf).2) none none
    simp only [place_order, get_symbol_info, h1, hscan]
  · obtain ⟨s', m', hscan⟩ := scanFilters_no_price si.filters h
      (fun f hf => (hwf f hf).1) none none
    cases s' with
    | none => simp only [place_order, get_symbol_info, h1, hscan]
    | some v => simp only [place_order, get_symbol_info, h1, hscan]

/-- Witness for C6 on a symbol whose rules lack the `LOT_SIZE` filter. -/
theorem C6_missing_rules_rejected_witness :
    noLotInfo.find? (fun s => s.symbol == upper "ETHUSDT")
      = some ⟨"ETHUSDT", noLotFilters⟩ ∧
    place_order noLotInfo sampleSecret 5000 1700000000000 "ETHUSDT" "BUY"
        "LIMIT" 1 (some 10) "GTC"
      = ([.get "/fapi/v1/exchangeInfo"], .error .rulesMissing) := by
  refine ⟨by with_unfolding_all rfl, ?_⟩
  exact C6_missing_rules_rejected noLotInfo sampleSecret 5000 1700000000000
    "ETHUSDT" "BUY" "LIMIT" 1 (some 10) "GTC" ⟨"ETHUSDT", noLotFilters⟩
    (by with_unfolding_all rfl) (by decide) (Or.inl (by decide))

/-- C9: when every `MIN_NOTIONAL` filter lacks its value (in particular when
the filter is absent), `place_order` treats the minimum notional as `0`, so
a LIMIT order with non-negative rounded `quantity × price` is never
rejected as notional-too-low. -/
theorem C9_absent_min_notional_treated_as_zero (info : List SymbolInfo)
    (api_secret : List Nat) (recvWindow timestamp : ℤ)
    (symbol side order_type : String) (quantity p : ℚ)
    (time_in_force : String) (si : SymbolInfo) (step tick : ℚ) (m : Option ℚ)
    (h1 : info.find? (fun s => s.symbol == upper symbol) = some si)
    (h2 : scanFilters si.filters none none none = .ok (some step, some tick, m))
    (hm : ∀ f ∈ si.filters, f.filterType = "MIN_NOTIONAL" → f.minNotional = none)
    (hlim : upper order_type = "LIMIT")
    (hq : 0 ≤ round_down quantity step * round_down p tick) :
    orZero m = 0 ∧
    isNotionalError (place_order info api_secret recvWindow timestamp symbol
        side order_type quantity (some p) time_in_force).2 = false := by
  have hm0 : m = none ∨ m = some 0 :=
    scanFilters_minN_zero si.filters none none none _ _ _ h2 hm (Or.inl rfl)
  have hz : orZero m = 0 := by rcases hm0 with h | h <;> simp [orZero, h]
  refine ⟨hz, ?_⟩
  have hq' : ¬ round_down quantity step * round_down p tick < orZero m := by
    rw [hz]; exact not_lt.mpr hq
  by_cases hstep : step = 0
  · simp [place_order, get_symbol_info, h1, h2, hstep, isNotionalError]
  by_cases htick : tick = 0
  · simp [place_order, get_symbol_info, h1, h2, htick, isNotionalError]
  simp only [place_order, get_symbol_info, h1, h2, hlim, Option.map_some',
    Bool.or_eq_true, beq_iff_eq, hstep, htick, or_self, false_or, or_false,
    if_false, ite_false, beq_self_eq_true, if_true, ite_true, hq']
  simp [isNotionalError]

/-- Witness for C9 on a symbol whose rules lack the `MIN_NOTIONAL` filter. -/
theorem C9_absent_min_notional_treated_as_zero_witness :
    noMinInfo.find? (fun s => s.symbol == upper "XRPUSDT")
      = some ⟨"XRPUSDT", noMinFilters⟩ ∧
    upper "limit" = "LIMIT" ∧
    (0:ℚ) ≤ round_down (2/1000) (1/1000) * round_down 10 (1/10) ∧
    orZero none = 0 ∧
    isNotionalError (place_order noMinInfo sampleSecret 5000 1700000000000
        "XRPUSDT" "buy" "limit" (2/1000) (some 10) "GTC").2 = false := by
  have h := C9_absent_min_notional_treated_as_zero noMinInfo sampleSecret 5000
    1700000000000 "XRPUSDT" "buy" "limit" (2/1000) 10 "GTC"
    ⟨"XRPUSDT", noMinFilters⟩ (1/1000) (1/10) none
    (by with_unfolding_all rfl) (by with_unfolding_all rfl) (by decide)
    (by with_unfolding_all rfl)
    (of_decide_eq_true (by with_unfolding_all rfl))
  exact ⟨by with_unfolding_all rfl, by with_unfolding_all rfl,
    of_decide_eq_true (by with_unfolding_all rfl), h.1, h.2⟩

/-- C10: a MARKET order's signed request parameters contain no `price` and
no `timeInForce` field, and a supplied price argument changes nothing: the
whole result (HTTP trace included) is identical for any two price
arguments. -/
theorem C10_market_ignores_price (info : List SymbolInfo)
    (api_secret : List Nat) (recvWindow timestamp : ℤ)
    (symbol side order_type : String) (quantity : ℚ) (time_in_force : String)
    (hmk : upper order_type = "MARKET") (p1 p2 : Option ℚ) :
    place_order info api_secret recvWindow timestamp symbol side order_type
        quantity p1 time_in_force
      = place_order info api_secret recvWindow timestamp symbol side
        order_type quantity p2 time_in_force
    ∧ paramsLackKey (place_order info api_secret recvWindow timestamp symbol
        side order_type quantity p1 time_in_force).2 "price" = true
    ∧ paramsLackKey (place_order info api_secret recvWindow timestamp symbol
        side order_type quantity p1 time_in_force).2 "timeInForce" = true := by
  have hne : ¬ upper order_type = "LIMIT" := by rw [hmk]; decide
  cases hfind : info.find? (fun s => s.symbol == upper symbol) with
  | none => simp [place_order, get_symbol_info, hfind, paramsLackKey]
  | some si =>
    cases hscan : scanFilters si.filters none none none with
    | error e => simp [place_order, get_symbol_info, hfind, hscan, paramsLackKey]
    | ok triple =>
      obtain ⟨s, t, m⟩ := triple
      cases s with
      | none => simp [place_order, get_symbol_info, hfind, hscan, paramsLackKey]
      | some step =>
        cases t with
        | none => simp [place_order, get_symbol_info, hfind, hscan, paramsLackKey]
        | some tick =>
          by_cases hstep : step = 0
          · simp [place_order, get_symbol_info, hfind, hscan, hstep,
              paramsLackKey]
          by_cases htick : tick = 0
          · simp [place_order, get_symbol_info, hfind, hscan, htick,
              paramsLackKey]
          simp [place_order, get_symbol_info, hfind, hscan, hstep, htick, hne,
            paramsLackKey, List.lookup]

/-- Witness for C10 on a concrete MARKET order with and without a price. -/
theorem C10_market_ignores_price_witness :
    upper "market" = "MARKET" ∧
    place_order sampleInfo sampleSecret 5000 1700000000000 "BTCUSDT" "sell"
        "market" (25/10) (some (12345/10)) "GTC"
      = place_order sampleInfo sampleSecret 5000 1700000000000 "BTCUSDT"
        "sell" "market" (25/10) none "GTC" ∧
    paramsLackKey (place_order sampleInfo sampleSecret 5000 1700000000000
        "BTCUSDT" "sell" "market" (25/10) (some (12345/10)) "GTC").2 "price"
      = true ∧
    paramsLackKey (place_order sampleInfo sampleSecret 5000 1700000000000
        "BTCUSDT" "sell" "market" (25/10) (some (12345/10)) "GTC").2
        "timeInForce" = true := by
  have h := C10_market_ignores_price sampleInfo sampleSecret 5000
    1700000000000 "BTCUSDT" "sell" "market" (25/10) "GTC"
    (by with_unfolding_all rfl) (some (12345/10)) none
  exact ⟨by with_unfolding_all rfl, h.1, h.2.1, h.2.2⟩

end BasicBot

